import Mathlib

/-!
Verification of the datastar-ssegen server-sent-event generator
(`src/index.js`) against its natural-language specification.

The JavaScript module is shallowly embedded: JS option fields that may be
`undefined`, `null`, or a value are modelled by `JSVal`; the event encoder
`_send`, the five command builders, the script sanitizer used by
`ExecuteScript`, the GET branch of `ReadSignals`, and the body-draining
promise of the non-GET branch are each translated into executable Lean
definitions.  JS builtins (`JSON.parse`) are taken as abstract parameters.
-/

/-- Model of a JavaScript value slot that may be `undefined`, `null`, or an
actual value of type `α`.  `undefined` is what a missing object property or
a missing optional argument reads as; `null` is the explicit null value. -/
inductive JSVal (α : Type) where
  | undefined : JSVal α
  | null : JSVal α
  | val : α → JSVal α
deriving DecidableEq, Repr

/-- JS loose comparison `x != null` is false exactly for `undefined` and
`null`; `isNullish` is its negation. -/
def JSVal.isNullish {α : Type} : JSVal α → Bool
  | .undefined => true
  | .null => true
  | .val _ => false

/-- JS template-literal rendering of a value slot: `undefined` prints as
"undefined", `null` as "null", and a value via the supplied printer. -/
def JSVal.render {α : Type} (f : α → String) : JSVal α → String
  | .undefined => "undefined"
  | .null => "null"
  | .val a => f a

/-- Rendering of an optional JS number (modelled as `Nat`). -/
def renderNat : JSVal Nat → String := JSVal.render Nat.repr

/-- Rendering of an optional JS boolean (`String(true) = "true"`). -/
def renderBool : JSVal Bool → String := JSVal.render (fun b => if b then "true" else "false")

/-- Rendering of an optional JS string. -/
def renderString : JSVal String → String := JSVal.render id

/-- JS optional chaining `options?.field`: when the whole options object is
absent (`none`), the read yields `undefined`. -/
def jget {β : Type} {α : Type} (o : Option β) (f : β → JSVal α) : JSVal α :=
  match o with
  | none => JSVal.undefined
  | some b => f b

/-- Options accepted by `_send` (src/index.js lines 16-20). -/
structure SendOpts where
  eventId : JSVal Nat
  retryDuration : JSVal Nat
deriving DecidableEq, Repr

/-- Default parameter object of `_send` (src/index.js lines 100-103):
`eventId: null, retryDuration: 1000`.  It applies only when the whole
`sendOptions` argument is absent. -/
def sendDefault : SendOpts := ⟨JSVal.null, JSVal.val 1000⟩

/-- The fixed outbound header set of the generator (src/index.js lines
83-87).  The source spells the second header name `Connnection` (three
`n`s), exactly as transcribed here. -/
def sseHeaders : List (String × String) :=
  [("Cache-Control", "no-cache"),
   ("Connnection", "keep-alive"),
   ("Content-Type", "text/event-stream")]

/-- Event encoder `_send` (src/index.js lines 97-133), restricted to the
rendered event string it builds and returns.  The header/write side
effects are modelled separately by `sendEffects`. -/
def _send (eventType : String) (dataLines : List String) (sendOptions : Option SendOpts) : String :=
  let so := sendOptions.getD sendDefault
  let data := String.join (dataLines.map (fun line => "data: " ++ line ++ "\n")) ++ "\n"
  let head := "comment: \"dev\"\n"
  let head2 := if so.eventId.isNullish then head
    else head ++ ("id: " ++ renderNat so.eventId ++ "\n")
  let head3 := if eventType = "" then head2
    else head2 ++ ("event: " ++ eventType ++ "\n")
  head3 ++ ("retry: " ++ renderNat so.retryDuration ++ "\n") ++ data

/-- One observable action performed by `_send` on the bound response. -/
inductive WriteAct where
  | setHeader : String → String → WriteAct
  | write : String → WriteAct
deriving DecidableEq, Repr

/-- Side effects of one `_send` call (src/index.js lines 118-130): if
headers were not yet sent, each header of `sseHeaders` is set (skipped on
Bun runtimes) and the headers-sent flag becomes true; then the event
string is written when the response has a write capability.  Returns the
performed actions and the updated headers-sent flag. -/
def sendEffects (isBun : Bool) (hasWrite : Bool) (headersSent : Bool)
    (eventString : String) : List WriteAct × Bool :=
  let headerActs := if headersSent then []
    else if isBun then []
    else sseHeaders.map (fun kv => WriteAct.setHeader kv.1 kv.2)
  let sent := if headersSent then headersSent else true
  (headerActs ++ (if hasWrite then [WriteAct.write eventString] else []), sent)

/-- Trace of response actions over a sequence of `_send` calls on one
connection context, threading the `headersSent` flag (starts false,
src/index.js line 82). -/
def sendTrace (isBun : Bool) (hasWrite : Bool) (events : List String) : List WriteAct :=
  (events.foldl
    (fun acc ev =>
      let step := sendEffects isBun hasWrite acc.2 ev
      (acc.1 ++ step.1, step.2))
    (([] : List WriteAct), false)).1

/-- Options accepted by `MergeFragments` (src/index.js lines 22-30). -/
structure MFOpts where
  selector : JSVal String
  mergeMode : JSVal String
  settleDuration : JSVal Nat
  useViewTransition : JSVal Bool
  eventId : JSVal Nat
  retryDuration : JSVal Nat
deriving DecidableEq, Repr

/-- Default parameter object of `MergeFragments` (src/index.js lines
184-191). -/
def mergeFragmentsDefault : MFOpts :=
  ⟨JSVal.null, JSVal.val "morph", JSVal.val 300, JSVal.null, JSVal.null, JSVal.null⟩

/-- The `fragments` argument of `MergeFragments`: a string, an array of
strings, a nullish value, or a value of any other (invalid) type. -/
inductive FragmentsArg where
  | str : String → FragmentsArg
  | arr : List String → FragmentsArg
  | nullish : FragmentsArg
  | other : FragmentsArg
deriving DecidableEq, Repr

/-- The regex replacement `fragment.replace(/[\r\n]+/g, "")` used at
src/index.js lines 203 and 207: every CR and LF character is removed. -/
def stripCRLF (s : String) : String :=
  String.mk (s.data.filter (fun c => ¬(c = '\r' ∨ c = '\n')))

/-- Data lines built by `MergeFragments` (src/index.js lines 193-214):
option lines for `selector`, `settleDuration`, `useViewTransition` (note:
`mergeMode` is never emitted), then one `fragments` line per fragment;
a falsy fragments argument or a non-string/non-array one throws. -/
def MergeFragmentsDataLines (fragments : FragmentsArg) (options : Option MFOpts) :
    Except String (List String) :=
  let o := options.getD mergeFragmentsDefault
  let d1 : List String := if o.selector.isNullish then []
    else ["selector " ++ renderString o.selector]
  let d2 := if o.settleDuration.isNullish then d1
    else d1 ++ ["settleDuration " ++ renderNat o.settleDuration]
  let d3 := if o.useViewTransition.isNullish then d2
    else d2 ++ ["useViewTransition " ++ renderBool o.useViewTransition]
  match fragments with
  | .str s =>
      if s = "" then Except.error "MergeFragments missing fragment(s)."
      else Except.ok (d3 ++ ["fragments " ++ stripCRLF s])
  | .arr l => Except.ok (d3 ++ l.map (fun frag => "fragments " ++ stripCRLF frag))
  | .nullish => Except.error "MergeFragments missing fragment(s)."
  | .other => Except.error "Invalid type for fragments. Expected string or array."

/-- Full `MergeFragments` call (src/index.js lines 182-219): builds the
data lines and delegates to `_send` with event id and retry duration taken
from the (possibly defaulted) options object. -/
def MergeFragments (fragments : FragmentsArg) (options : Option MFOpts) :
    Except String String :=
  let o := options.getD mergeFragmentsDefault
  match MergeFragmentsDataLines fragments options with
  | .error e => Except.error e
  | .ok ls => Except.ok (_send "datastar-merge-fragments" ls (some ⟨o.eventId, o.retryDuration⟩))

/-- Options accepted by `RemoveFragments` (src/index.js lines 32-38). -/
structure RFOpts where
  settleDuration : JSVal Nat
  useViewTransition : JSVal Bool
  eventId : JSVal Nat
  retryDuration : JSVal Nat
deriving DecidableEq, Repr

/-- Data lines built by `RemoveFragments` (src/index.js lines 227-237):
the `selector` payload line is pushed first, then the option lines; an
empty (falsy) selector throws. -/
def RemoveFragmentsDataLines (selector : String) (options : Option RFOpts) :
    Except String (List String) :=
  if selector = "" then Except.error "RemoveFragments missing selector."
  else
    let d1 := ["selector " ++ selector]
    let sd := jget options RFOpts.settleDuration
    let d2 := if sd.isNullish then d1 else d1 ++ ["settleDuration " ++ renderNat sd]
    let uvt := jget options RFOpts.useViewTransition
    let d3 := if uvt.isNullish then d2 else d2 ++ ["useViewTransition " ++ renderBool uvt]
    Except.ok d3

/-- Full `RemoveFragments` call (src/index.js lines 227-242). -/
def RemoveFragments (selector : String) (options : Option RFOpts) :
    Except String String :=
  match RemoveFragmentsDataLines selector options with
  | .error e => Except.error e
  | .ok ls => Except.ok (_send "datastar-remove-fragments" ls
      (some ⟨jget options RFOpts.eventId, jget options RFOpts.retryDuration⟩))

/-- JSON values, used to model the JavaScript objects handled by
`MergeSignals` and `ReadSignals`.  Objects are ordered key/value lists
(JS objects preserve insertion order); numbers are modelled as integers. -/
inductive Json where
  | null : Json
  | bool : Bool → Json
  | num : Int → Json
  | str : String → Json
  | arr : List Json → Json
  | obj : List (String × Json) → Json

/-- Minimal model of the string escaping performed by `JSON.stringify`:
backslashes and double quotes are escaped (control-character escaping of
the builtin is not modelled; no claim depends on it). -/
def jsonEscape : List Char → List Char
  | [] => []
  | c :: t =>
      if c = '\\' ∨ c = '"' then '\\' :: c :: jsonEscape t
      else c :: jsonEscape t

mutual

/-- Model of the JS builtin `JSON.stringify` used at src/index.js
line 257. -/
def Json.stringify : Json → String
  | .null => "null"
  | .bool b => if b then "true" else "false"
  | .num n => n.repr
  | .str s => "\"" ++ String.mk (jsonEscape s.data) ++ "\""
  | .arr es => "[" ++ Json.stringifyElems es ++ "]"
  | .obj fs => "\x7b" ++ Json.stringifyFields fs ++ "\x7d"

/-- Comma-separated serialization of array elements. -/
def Json.stringifyElems : List Json → String
  | [] => ""
  | [e] => Json.stringify e
  | e :: es => Json.stringify e ++ "," ++ Json.stringifyElems es

/-- Comma-separated serialization of object fields. -/
def Json.stringifyFields : List (String × Json) → String
  | [] => ""
  | [kv] => "\"" ++ String.mk (jsonEscape kv.1.data) ++ "\":" ++ Json.stringify kv.2
  | kv :: fs => "\"" ++ String.mk (jsonEscape kv.1.data) ++ "\":" ++ Json.stringify kv.2
      ++ "," ++ Json.stringifyFields fs

end

/-- Options accepted by `MergeSignals` (src/index.js lines 40-45). -/
structure MSOpts where
  onlyIfMissing : JSVal Bool
  eventId : JSVal Nat
  retryDuration : JSVal Nat
deriving DecidableEq, Repr

/-- Data lines built by `MergeSignals` (src/index.js lines 251-260): an
`onlyIfMissing true` option line only when the option is strictly `true`,
then the serialized signals payload; missing (nullish) signals throw. -/
def MergeSignalsDataLines (signals : Option (List (String × Json)))
    (options : Option MSOpts) : Except String (List String) :=
  let d1 : List String :=
    if jget options MSOpts.onlyIfMissing = JSVal.val true then ["onlyIfMissing true"] else []
  match signals with
  | none => Except.error "MergeSignals missing signals."
  | some m => Except.ok (d1 ++ ["signals " ++ Json.stringify (Json.obj m)])

/-- Full `MergeSignals` call (src/index.js lines 251-265). -/
def MergeSignals (signals : Option (List (String × Json))) (options : Option MSOpts) :
    Except String String :=
  match MergeSignalsDataLines signals options with
  | .error e => Except.error e
  | .ok ls => Except.ok (_send "datastar-merge-signals" ls
      (some ⟨jget options MSOpts.eventId, jget options MSOpts.retryDuration⟩))

/-- Data lines built by `RemoveSignals` (src/index.js lines 273-284): one
`paths` line per element of the paths array; a nullish paths argument
throws.  An empty array is truthy in JS, so it succeeds with zero lines. -/
def RemoveSignalsDataLines (paths : Option (List String)) :
    Except String (List String) :=
  match paths with
  | none => Except.error "RemoveSignals missing paths"
  | some l => Except.ok (l.map (fun path => "paths " ++ path))

/-- Full `RemoveSignals` call (src/index.js lines 273-289); its options
object has the same shape as `SendOpts`. -/
def RemoveSignals (paths : Option (List String)) (options : Option SendOpts) :
    Except String String :=
  match RemoveSignalsDataLines paths with
  | .error e => Except.error e
  | .ok ls => Except.ok (_send "datastar-remove-signals" ls
      (some ⟨jget options SendOpts.eventId, jget options SendOpts.retryDuration⟩))

/-- JS whitespace recognized by `String.prototype.trim` (restricted to the
ASCII whitespace characters that can occur in the modelled inputs). -/
def jsIsWs (c : Char) : Bool :=
  c = ' ' ∨ c = '\t' ∨ c = '\n' ∨ c = '\r'

/-- Character-list version of `String.prototype.trim`: strip whitespace
from both ends. -/
def trimChars (l : List Char) : List Char :=
  ((l.dropWhile jsIsWs).reverse.dropWhile jsIsWs).reverse

/-- Character-list version of `script.split("\n")` (src/index.js line
304): split on every newline, keeping empty segments. -/
def splitOnNewline : List Char → List (List Char)
  | [] => [[]]
  | c :: t =>
      let r := splitOnNewline t
      if c = '\n' then [] :: r
      else
        match r with
        | [] => [[c]]
        | h :: t2 => (c :: h) :: t2

/-- The single-quote character, written via its code point. -/
def singleQuote : Char := Char.ofNat 39

/-- Single left-to-right scan of one (already trimmed) script line
(src/index.js lines 309-348).  Arguments: remaining characters, the
`insideBlockComment` flag (carried across lines), the per-line
`isInString` and `isEscape` flags, and the accumulated output characters
in reverse.  Returns the collected characters and the block-comment flag
at end of line.  A `//` outside a string discards the rest of the line;
`/*` ... `*/` bodies are dropped; characters inside `"`/`'` string
literals are copied verbatim with escape tracking. -/
def scanLine : List Char → Bool → Bool → Bool → List Char → List Char × Bool
  | [], inBlock, _, _, acc => (acc.reverse, inBlock)
  | '*' :: '/' :: rest2, true, inStr, esc, acc => scanLine rest2 false inStr esc acc
  | _ :: rest, true, inStr, esc, acc => scanLine rest true inStr esc acc
  | c :: rest, false, true, esc, acc =>
      if c = '\\' && !esc then scanLine rest false true true (c :: acc)
      else if (c = '"' || c = singleQuote) && !esc then scanLine rest false false false (c :: acc)
      else scanLine rest false true false (c :: acc)
  | '/' :: '/' :: _, false, false, _, acc => (acc.reverse, false)
  | '/' :: '*' :: rest2, false, false, esc, acc => scanLine rest2 true false esc acc
  | c :: rest, false, false, esc, acc =>
      if c = '"' || c = singleQuote then scanLine rest false true esc (c :: acc)
      else scanLine rest false false esc (c :: acc)

/-- The script sanitizer of `ExecuteScript` (src/index.js lines 304-354):
split on newlines, trim each line, scan it with `scanLine` (threading the
block-comment flag across lines), trim the result, and drop lines that
became empty. -/
def processScript (script : String) : List String :=
  let folded := (splitOnNewline script.data).foldl
    (fun acc lineChars =>
      let scanned := scanLine (trimChars lineChars) acc.1 false false []
      (scanned.2, acc.2 ++ [String.mk (trimChars scanned.1)]))
    (false, ([] : List String))
  folded.2.filter (fun l => l.length > 0)

/-- The `processedLines.join(" ")` step (src/index.js line 356). -/
def joinSpace : List String → String
  | [] => ""
  | [s] => s
  | s :: t => s ++ " " ++ joinSpace t

/-- Options accepted by `ExecuteScript` (src/index.js lines 47-52). -/
structure ESOpts where
  autoRemove : JSVal Bool
  eventId : JSVal Nat
  retryDuration : JSVal Nat
deriving DecidableEq, Repr

/-- Data lines built by `ExecuteScript` (src/index.js lines 297-358): an
`autoRemove` option line when provided, then — whenever the script
argument is truthy (non-empty) — a `script` line holding the sanitized
single-line script.  The `script` line is pushed unconditionally in that
branch, even when sanitization leaves an empty payload. -/
def ExecuteScriptDataLines (script : String) (options : Option ESOpts) : List String :=
  let d1 : List String :=
    if (jget options ESOpts.autoRemove).isNullish then []
    else ["autoRemove " ++ renderBool (jget options ESOpts.autoRemove)]
  if script = "" then d1
  else d1 ++ ["script " ++ joinSpace (processScript script)]

/-- Full `ExecuteScript` call (src/index.js lines 297-364); it performs no
validation and always sends. -/
def ExecuteScript (script : String) (options : Option ESOpts) : String :=
  _send "datastar-execute-script" (ExecuteScriptDataLines script options)
    (some ⟨jget options ESOpts.eventId, jget options ESOpts.retryDuration⟩)

/-- First-occurrence lookup in a JS object modelled as an ordered
key/value list. -/
def lookupJ : List (String × Json) → String → Option Json
  | [], _ => none
  | kv :: t, k => if kv.1 = k then some kv.2 else lookupJ t k

/-- JS object spread `\x7b...a, ...b\x7d`: the keys of `a` in order (with
the value overridden by `b` where `b` has the same key), followed by the
keys of `b` that are not in `a`, in order. -/
def spreadObj (a b : List (String × Json)) : List (String × Json) :=
  (a.map (fun kv =>
    match lookupJ b kv.1 with
    | some w => (kv.1, w)
    | none => kv))
  ++ b.filter (fun kv => (lookupJ a kv.1).isNone)

/-- Keys produced by spreading a parsed JSON value in JS: objects
contribute their fields; arrays and strings contribute index keys;
primitives contribute nothing. -/
def jsSpreadKeys : Json → List (String × Json)
  | .obj l => l
  | .arr l => l.enum.map (fun iv => (Nat.repr iv.1, iv.2))
  | .str s => s.data.enum.map (fun ic => (Nat.repr ic.1, Json.str (String.mk [ic.2])))
  | _ => []

/-- JS string coercion applied by `JSON.parse` to its argument: an absent
query parameter reads as `undefined`, which coerces to the (unparseable)
string "undefined". -/
def jsUndef : Option String → String
  | none => "undefined"
  | some s => s

/-- GET branch of `ReadSignals` (src/index.js lines 142-152): extract the
`datastar` query parameter, run it through the JS builtin `JSON.parse`
(passed here as the abstract `parse`, which rejects the string
"undefined"), and spread the result over the caller-supplied signals.  A
parse failure propagates as the rejection of the async call. -/
def ReadSignalsGET (parse : String → Except String Json)
    (signals : List (String × Json)) (datastarParam : Option String) :
    Except String (List (String × Json)) :=
  match parse (jsUndef datastarParam) with
  | .error e => Except.error e
  | .ok q => Except.ok (spreadObj signals (jsSpreadKeys q))

/-- One event emitted by the request body stream in the non-GET fallback
path of `ReadSignals`. -/
inductive StreamEv where
  | data : String → StreamEv
  | endEv : StreamEv
  | errorEv : String → StreamEv
deriving DecidableEq, Repr

/-- Settlement state of the promise created at src/index.js lines
160-168. -/
inductive PromiseState where
  | pending : PromiseState
  | resolved : Json → PromiseState
  | rejected : String → PromiseState

/-- Effect of one stream event on the body-draining promise
(src/index.js lines 160-168).  The executor registers a "data" handler
that appends the chunk and an "end" handler that resolves with
`JSON.parse(chunks)`; no "error" handler is registered, so an error event
changes nothing.  A parse failure inside the "end" handler throws before
`resolve` is called, leaving the promise pending; resolving an
already-settled promise is a no-op. -/
def drainStep (parse : String → Except String Json)
    (st : PromiseState × String) (ev : StreamEv) : PromiseState × String :=
  match ev with
  | .data c => (st.1, st.2 ++ c)
  | .endEv =>
      match st.1 with
      | .pending =>
          match parse st.2 with
          | .ok v => (PromiseState.resolved v, st.2)
          | .error _ => (PromiseState.pending, st.2)
      | s => (s, st.2)
  | .errorEv _ => st

/-- State of the body-draining promise after the stream has emitted the
given sequence of events, starting from a pending promise with an empty
chunk accumulator. -/
def drainPromise (parse : String → Except String Json) (evs : List StreamEv) :
    PromiseState :=
  (evs.foldl (drainStep parse) (PromiseState.pending, "")).1

/-- Concatenation of the data chunks in a stream-event sequence, in
order. -/
def dataConcat : List StreamEv → String
  | [] => ""
  | .data s :: t => s ++ dataConcat t
  | _ :: t => dataConcat t

/-- A concrete stand-in for the JS builtin `JSON.parse`, used to
instantiate abstract-parse theorems at concrete inputs: it recognizes the
two object literals needed by the witnesses and rejects everything else
with a syntax error. -/
def parseSample (s : String) : Except String Json :=
  if s = "\x7b\"x\":1\x7d" then Except.ok (Json.obj [("x", Json.num 1)])
  else Except.error "SyntaxError: Unexpected token"

/-- Decides whether the first character sequence is a prefix of the
second. -/
def startsWithSeq : List Char → List Char → Bool
  | [], _ => true
  | _ :: _, [] => false
  | a :: as, b :: bs => a = b && startsWithSeq as bs

/-- Decides whether the needle occurs as a contiguous subsequence of the
haystack. -/
def containsSeq (needle : List Char) : List Char → Bool
  | [] => startsWithSeq needle []
  | c :: t => startsWithSeq needle (c :: t) || containsSeq needle t

/-- C1: the claim says a caller-supplied `mergeMode` option always yields
a `mergeMode <value>` data line.  The code never reads the `mergeMode`
field: the data lines are invariant under changing it, and the concrete
call `MergeFragments("<div>1</div>", \x7bmergeMode: "append"\x7d)` emits
only the `fragments` payload line, with no `mergeMode` line.  This
contradicts the module's own option documentation, so the code is at
fault. -/
theorem mergeFragments_ignores_mergeMode :
    (∀ (f : FragmentsArg) (sel m m2 : JSVal String) (sd : JSVal Nat)
      (uvt : JSVal Bool) (eid rd : JSVal Nat),
      MergeFragmentsDataLines f (some ⟨sel, m, sd, uvt, eid, rd⟩) =
        MergeFragmentsDataLines f (some ⟨sel, m2, sd, uvt, eid, rd⟩)) ∧
    MergeFragmentsDataLines (FragmentsArg.str "<div>1</div>")
      (some ⟨JSVal.undefined, JSVal.val "append", JSVal.undefined, JSVal.undefined,
        JSVal.undefined, JSVal.undefined⟩) =
      Except.ok ["fragments <div>1</div>"] :=
  ⟨fun _ _ _ _ _ _ _ _ => rfl, rfl⟩

/-- C2: the claim says the one-time header set is exactly
`Cache-Control: no-cache`, `Connection: keep-alive`,
`Content-Type: text/event-stream`.  The code writes headers exactly once,
before the first event write — but the second header is spelled
`Connnection` (three `n`s), so no header named `Connection` is ever set. -/
theorem sse_headers_misspell_connection :
    sendTrace false true ["E1", "E2"] =
      [WriteAct.setHeader "Cache-Control" "no-cache",
       WriteAct.setHeader "Connnection" "keep-alive",
       WriteAct.setHeader "Content-Type" "text/event-stream",
       WriteAct.write "E1", WriteAct.write "E2"] ∧
    "Connection" ∉ sseHeaders.map Prod.fst ∧
    "Connnection" ∈ sseHeaders.map Prod.fst :=
  ⟨rfl, by decide, by decide⟩

/-- C4 counterexample: the claim says a script that reduces to nothing
but comments yields no `script` data line at all; on the spec's own
example input the code emits the data line `script ` with an empty
payload. -/
theorem executeScript_comments_only_counterexample :
    ExecuteScriptDataLines "// a\n/* b */" none = ["script "] := rfl

/-- C4 amended: for every non-empty script whose sanitization leaves no
lines, ExecuteScript emits the data line `script ` with an empty payload
(rather than omitting the line). -/
theorem executeScript_comments_only_empty_payload (script : String)
    (hne : script ≠ "") (hp : processScript script = []) :
    ExecuteScriptDataLines script none = ["script "] := by
  unfold ExecuteScriptDataLines
  simp [jget, JSVal.isNullish, hne, hp, joinSpace]

/-- C4 witness: the amended statement applied at the spec's example
input. -/
theorem executeScript_comments_only_empty_payload_witness :
    ExecuteScriptDataLines "// a\n/* b */" none = ["script "] :=
  executeScript_comments_only_empty_payload "// a\n/* b */" (by decide) (by rfl)

/-- C7: on the input `console.log("//not a comment"); // real comment`
the sanitizer keeps the string literal `"//not a comment"` verbatim,
drops everything from `// real comment` onward, and produces a single
line with no embedded newline. -/
theorem sanitizer_preserves_string_literal :
    joinSpace (processScript "console.log(\"//not a comment\"); // real comment") =
      "console.log(\"//not a comment\");" ∧
    (∃ pre post : String,
      "console.log(\"//not a comment\");" = pre ++ "\"//not a comment\"" ++ post) ∧
    ("console.log(\"//not a comment\");".data.contains '\n') = false :=
  ⟨rfl, ⟨"console.log(", ");", by rfl⟩, by rfl⟩

/-- C10: documented option defaults live in default-parameter object
literals, so they apply only when the whole options argument is omitted:
`MergeFragments(f)` emits `settleDuration 300`, while
`MergeFragments(f, opts)` with `settleDuration` absent emits no
settleDuration line; `_send` resolves `retry: 1000` only when the whole
sendOptions argument is absent, and renders `retry: undefined` when a
builder forwards an absent retryDuration. -/
theorem defaults_only_when_options_omitted :
    (∀ s : String, s ≠ "" →
      MergeFragmentsDataLines (FragmentsArg.str s) none =
        Except.ok ["settleDuration 300", "fragments " ++ stripCRLF s]) ∧
    (∀ (s : String) (sel mm : JSVal String) (uvt : JSVal Bool) (eid rd : JSVal Nat),
      s ≠ "" →
      MergeFragmentsDataLines (FragmentsArg.str s)
          (some ⟨sel, mm, JSVal.undefined, uvt, eid, rd⟩) =
        Except.ok ((if sel.isNullish then [] else ["selector " ++ renderString sel]) ++
          (if uvt.isNullish then [] else ["useViewTransition " ++ renderBool uvt]) ++
          ["fragments " ++ stripCRLF s])) ∧
    _send "x" [] none = "comment: \"dev\"\nevent: x\nretry: 1000\n\n" ∧
    _send "x" [] (some ⟨JSVal.undefined, JSVal.undefined⟩) =
      "comment: \"dev\"\nevent: x\nretry: undefined\n\n" := by
  refine ⟨?_, ?_, rfl, rfl⟩
  · intro s h
    unfold MergeFragmentsDataLines
    simp [h, mergeFragmentsDefault, JSVal.isNullish]
    rfl
  · intro s sel mm uvt eid rd h
    cases sel <;> cases uvt <;>
      simp [MergeFragmentsDataLines, h, JSVal.isNullish]

/-- C10 witness: the first default-application statement at the concrete
fragment "x". -/
theorem defaults_only_when_options_omitted_witness :
    MergeFragmentsDataLines (FragmentsArg.str "x") none =
      Except.ok ["settleDuration 300", "fragments " ++ stripCRLF "x"] :=
  defaults_only_when_options_omitted.1 "x" (by decide)

/-- C5 counterexample: the claim says no builder ever succeeds while
emitting zero data lines.  `ExecuteScript("")` performs no validation,
builds zero data lines, and still sends an event consisting only of
framing lines. -/
theorem executeScript_empty_succeeds_no_data :
    ExecuteScriptDataLines "" none = ([] : List String) ∧
    ExecuteScript "" none =
      "comment: \"dev\"\nevent: datastar-execute-script\nretry: undefined\n\n" :=
  ⟨rfl, rfl⟩

/-- C5 amended: MergeFragments (with a string fragment), RemoveFragments
and MergeSignals fail validation or emit at least one data line; but
ExecuteScript with an empty script and no autoRemove, RemoveSignals with
an empty paths array, and MergeFragments with an empty fragments array
and an options object with no applicable options all succeed with zero
data lines. -/
theorem builders_nonempty_or_fail :
    (∀ (sel : String) (o : Option RFOpts) (ls : List String),
      RemoveFragmentsDataLines sel o = Except.ok ls → ls ≠ []) ∧
    (∀ (s : String) (o : Option MFOpts) (ls : List String),
      MergeFragmentsDataLines (FragmentsArg.str s) o = Except.ok ls → ls ≠ []) ∧
    (∀ (sig : List (String × Json)) (o : Option MSOpts) (ls : List String),
      MergeSignalsDataLines (some sig) o = Except.ok ls → ls ≠ []) ∧
    RemoveSignalsDataLines (some []) = Except.ok [] ∧
    ExecuteScriptDataLines "" none = [] ∧
    MergeFragmentsDataLines (FragmentsArg.arr [])
      (some ⟨JSVal.undefined, JSVal.undefined, JSVal.undefined, JSVal.undefined,
        JSVal.undefined, JSVal.undefined⟩) = Except.ok [] := by
  refine ⟨?_, ?_, ?_, rfl, rfl, rfl⟩
  · intro sel o ls h hnil
    rw [hnil] at h
    by_cases hsel : sel = "" <;> simp [RemoveFragmentsDataLines, hsel] at h
    split_ifs at h <;> simp at h
  · intro s o ls h hnil
    rw [hnil] at h
    by_cases hs : s = "" <;> simp [MergeFragmentsDataLines, hs] at h
  · intro sig o ls h hnil
    rw [hnil] at h
    simp [MergeSignalsDataLines] at h

/-- C5 witness: the RemoveFragments clause applied at a concrete call. -/
theorem builders_nonempty_or_fail_witness :
    RemoveFragmentsDataLines "#a" none = Except.ok ["selector #a"] ∧
    (["selector #a"] : List String) ≠ [] :=
  ⟨rfl, builders_nonempty_or_fail.1 "#a" none ["selector #a"] rfl⟩

/-- C6 counterexample: the claim says option lines always precede the
payload line, in particular that `settleDuration` precedes `selector` for
RemoveFragments.  The code pushes the `selector` payload line first. -/
theorem removeFragments_payload_first_counterexample :
    RemoveFragmentsDataLines "#x"
      (some ⟨JSVal.val 100, JSVal.undefined, JSVal.undefined, JSVal.undefined⟩) =
      Except.ok ["selector #x", "settleDuration 100"] := rfl

/-- C6 amended: data lines follow [option lines] then [payload lines] for
MergeFragments, MergeSignals and ExecuteScript (and RemoveSignals has no
option lines), but RemoveFragments emits the payload line
`selector <value>` first, followed by `settleDuration` and
`useViewTransition`.  Stated as the exact line list of each builder with
all options supplied. -/
theorem data_line_order :
    (∀ (s sel : String) (sd : Nat) (uvt : Bool) (mm : JSVal String) (eid rd : JSVal Nat),
      s ≠ "" →
      MergeFragmentsDataLines (FragmentsArg.str s)
          (some ⟨JSVal.val sel, mm, JSVal.val sd, JSVal.val uvt, eid, rd⟩) =
        Except.ok ["selector " ++ sel, "settleDuration " ++ Nat.repr sd,
          "useViewTransition " ++ (if uvt then "true" else "false"),
          "fragments " ++ stripCRLF s]) ∧
    (∀ (sel : String) (sd : Nat) (uvt : Bool) (eid rd : JSVal Nat),
      sel ≠ "" →
      RemoveFragmentsDataLines sel (some ⟨JSVal.val sd, JSVal.val uvt, eid, rd⟩) =
        Except.ok ["selector " ++ sel, "settleDuration " ++ Nat.repr sd,
          "useViewTransition " ++ (if uvt then "true" else "false")]) ∧
    (∀ (sig : List (String × Json)) (eid rd : JSVal Nat),
      MergeSignalsDataLines (some sig) (some ⟨JSVal.val true, eid, rd⟩) =
        Except.ok ["onlyIfMissing true", "signals " ++ Json.stringify (Json.obj sig)]) ∧
    (∀ paths : List String,
      RemoveSignalsDataLines (some paths) =
        Except.ok (paths.map (fun p => "paths " ++ p))) ∧
    (∀ (script : String) (ar : Bool) (eid rd : JSVal Nat),
      script ≠ "" →
      ExecuteScriptDataLines script (some ⟨JSVal.val ar, eid, rd⟩) =
        ["autoRemove " ++ (if ar then "true" else "false"),
         "script " ++ joinSpace (processScript script)]) := by
  refine ⟨?_, ?_, ?_, fun _ => rfl, ?_⟩
  · intro s sel sd uvt mm eid rd h
    simp [MergeFragmentsDataLines, h, JSVal.isNullish, renderString, renderNat,
      renderBool, JSVal.render]
  · intro sel sd uvt eid rd h
    simp [RemoveFragmentsDataLines, h, jget, JSVal.isNullish, renderNat,
      renderBool, JSVal.render]
  · intro sig eid rd
    simp [MergeSignalsDataLines, jget]
  · intro script ar eid rd h
    simp [ExecuteScriptDataLines, h, jget, JSVal.isNullish, renderBool, JSVal.render]

/-- C6 witness: the RemoveFragments clause applied at a concrete call,
showing payload before option lines. -/
theorem data_line_order_witness :
    RemoveFragmentsDataLines "#x"
      (some ⟨JSVal.val 100, JSVal.val true, JSVal.undefined, JSVal.undefined⟩) =
      Except.ok ["selector " ++ "#x", "settleDuration " ++ Nat.repr 100,
        "useViewTransition " ++ (if true then "true" else "false")] :=
  data_line_order.2.1 "#x" 100 true JSVal.undefined JSVal.undefined (by decide)

/-- Every rendered event contains a `retry:` line carrying the rendering
of the (possibly absent) forwarded `retryDuration`. -/
theorem send_retry_line_shape (et : String) (dl : List String) (so : Option SendOpts) :
    ∃ pre post : String, _send et dl so =
      pre ++ ("retry: " ++ renderNat (so.getD sendDefault).retryDuration ++ "\n") ++ post :=
  ⟨_, _, rfl⟩

/-- C3 counterexample: the claim says a builder call without a
`retryDuration` option renders `retry: 1000`.  The concrete call
`RemoveFragments("#a")` renders `retry: undefined` and the rendered event
does not contain `retry: 1000`. -/
theorem retry_default_not_resolved_counterexample :
    RemoveFragments "#a" none = Except.ok
      "comment: \"dev\"\nevent: datastar-remove-fragments\nretry: undefined\ndata: selector #a\n\n" ∧
    containsSeq "retry: 1000".data
      "comment: \"dev\"\nevent: datastar-remove-fragments\nretry: undefined\ndata: selector #a\n\n".data
      = false :=
  ⟨rfl, by rfl⟩

/-- C3 amended: a `retry:` line is present in every rendered event, but
the Encoder's default of 1000 is never resolved through the builders:
each builder passes an explicit sendOptions object, so when the caller
omits `retryDuration` the line renders as `retry: undefined` (or
`retry: null` for MergeFragments with the whole options argument omitted,
whose default object carries `retryDuration: null`). -/
theorem retry_line_always_default_never :
    (∀ (et : String) (dl : List String) (so : Option SendOpts),
      ∃ pre post : String, _send et dl so =
        pre ++ ("retry: " ++ renderNat (so.getD sendDefault).retryDuration ++ "\n") ++ post) ∧
    (∀ (f : FragmentsArg) (s : String), MergeFragments f none = Except.ok s →
      ∃ pre post : String, s = pre ++ "retry: null\n" ++ post) ∧
    (∀ (f : FragmentsArg) (o : MFOpts) (s : String), o.retryDuration = JSVal.undefined →
      MergeFragments f (some o) = Except.ok s →
      ∃ pre post : String, s = pre ++ "retry: undefined\n" ++ post) ∧
    (∀ (sel : String) (o : Option RFOpts) (s : String),
      jget o RFOpts.retryDuration = JSVal.undefined →
      RemoveFragments sel o = Except.ok s →
      ∃ pre post : String, s = pre ++ "retry: undefined\n" ++ post) ∧
    (∀ (sig : Option (List (String × Json))) (o : Option MSOpts) (s : String),
      jget o MSOpts.retryDuration = JSVal.undefined →
      MergeSignals sig o = Except.ok s →
      ∃ pre post : String, s = pre ++ "retry: undefined\n" ++ post) ∧
    (∀ (p : Option (List String)) (o : Option SendOpts) (s : String),
      jget o SendOpts.retryDuration = JSVal.undefined →
      RemoveSignals p o = Except.ok s →
      ∃ pre post : String, s = pre ++ "retry: undefined\n" ++ post) ∧
    (∀ (script : String) (o : Option ESOpts),
      jget o ESOpts.retryDuration = JSVal.undefined →
      ∃ pre post : String, ExecuteScript script o =
        pre ++ "retry: undefined\n" ++ post) := by
  refine ⟨send_retry_line_shape, ?_, ?_, ?_, ?_, ?_, ?_⟩
  · intro f s h
    cases hd : MergeFragmentsDataLines f none with
    | error e => simp [MergeFragments, hd] at h
    | ok ls =>
      simp [MergeFragments, hd] at h
      obtain ⟨pre, post, hs⟩ :=
        send_retry_line_shape "datastar-merge-fragments" ls
          (some ⟨mergeFragmentsDefault.eventId, mergeFragmentsDefault.retryDuration⟩)
      exact ⟨pre, post, by rw [← h, hs]; rfl⟩
  · intro f o s hrd h
    cases hd : MergeFragmentsDataLines f (some o) with
    | error e => simp [MergeFragments, hd] at h
    | ok ls =>
      simp [MergeFragments, hd] at h
      obtain ⟨pre, post, hs⟩ :=
        send_retry_line_shape "datastar-merge-fragments" ls
          (some ⟨o.eventId, o.retryDuration⟩)
      refine ⟨pre, post, by rw [← h, hs, hrd]; rfl⟩
  · intro sel o s hrd h
    cases hd : RemoveFragmentsDataLines sel o with
    | error e => simp [RemoveFragments, hd] at h
    | ok ls =>
      simp [RemoveFragments, hd] at h
      obtain ⟨pre, post, hs⟩ :=
        send_retry_line_shape "datastar-remove-fragments" ls
          (some ⟨jget o RFOpts.eventId, jget o RFOpts.retryDuration⟩)
      refine ⟨pre, post, by rw [← h, hs, hrd]; rfl⟩
  · intro sig o s hrd h
    cases hd : MergeSignalsDataLines sig o with
    | error e => simp [MergeSignals, hd] at h
    | ok ls =>
      simp [MergeSignals, hd] at h
      obtain ⟨pre, post, hs⟩ :=
        send_retry_line_shape "datastar-merge-signals" ls
          (some ⟨jget o MSOpts.eventId, jget o MSOpts.retryDuration⟩)
      refine ⟨pre, post, by rw [← h, hs, hrd]; rfl⟩
  · intro p o s hrd h
    cases hd : RemoveSignalsDataLines p with
    | error e => simp [RemoveSignals, hd] at h
    | ok ls =>
      simp [RemoveSignals, hd] at h
      obtain ⟨pre, post, hs⟩ :=
        send_retry_line_shape "datastar-remove-signals" ls
          (some ⟨jget o SendOpts.eventId, jget o SendOpts.retryDuration⟩)
      refine ⟨pre, post, by rw [← h, hs, hrd]; rfl⟩
  · intro script o hrd
    obtain ⟨pre, post, hs⟩ :=
      send_retry_line_shape "datastar-execute-script"
        (ExecuteScriptDataLines script o)
        (some ⟨jget o ESOpts.eventId, jget o ESOpts.retryDuration⟩)
    refine ⟨pre, post, by rw [ExecuteScript, hs, hrd]; rfl⟩

/-- C3 witness: the RemoveFragments clause applied at a concrete call
with no options. -/
theorem retry_line_always_default_never_witness :
    ∃ pre post : String,
      ("comment: \"dev\"\nevent: datastar-remove-fragments\nretry: undefined\ndata: selector #a\n\n" : String)
        = pre ++ "retry: undefined\n" ++ post :=
  retry_line_always_default_never.2.2.2.1 "#a" none _ rfl rfl

/-- Lookup distributes over list append: the left part wins when it has
the key. -/
theorem lookupJ_append (xs ys : List (String × Json)) (k : String) :
    lookupJ (xs ++ ys) k =
      match lookupJ xs k with
      | some v => some v
      | none => lookupJ ys k := by
  induction xs with
  | nil => rfl
  | cons kv t ih => by_cases h : kv.1 = k <;> simp [lookupJ, h, ih]

/-- Lookup in the override segment of a spread: each key of `a` keeps its
position, with the value taken from `b` when `b` has the key. -/
theorem lookupJ_map_override (b : List (String × Json)) :
    ∀ (a : List (String × Json)) (k : String),
    lookupJ (a.map (fun kv =>
      match lookupJ b kv.1 with
      | some w => (kv.1, w)
      | none => kv)) k =
      match lookupJ a k with
      | some v => some ((lookupJ b k).getD v)
      | none => none := by
  intro a
  induction a with
  | nil => intro k; rfl
  | cons kv t ih =>
    intro k
    rcases hb : lookupJ b kv.1 with _ | w <;> by_cases h : kv.1 = k
    · subst h; simp [lookupJ, hb, ih]
    · simp [lookupJ, h, ih, hb]
    · subst h; simp [lookupJ, hb, ih]
    · simp [lookupJ, h, ih, hb]

/-- Filtering with a predicate that keeps every entry carrying key `k`
does not change the lookup of `k`. -/
theorem lookupJ_filter_keep (p : String × Json → Bool)
    (b : List (String × Json)) (k : String)
    (hp : ∀ v : Json, p (k, v) = true) :
    lookupJ (b.filter p) k = lookupJ b k := by
  induction b with
  | nil => rfl
  | cons kv t ih =>
    cases kv with
    | mk k1 v1 =>
      by_cases h : k1 = k
      · subst h; simp [List.filter_cons, hp v1, lookupJ]
      · cases hpk : p (k1, v1) <;> simp [List.filter_cons, hpk, lookupJ, h, ih]

/-- Shallow-merge semantics of the JS object spread: a key found in the
spread source wins, any other key falls back to the base object. -/
theorem lookupJ_spreadObj (a b : List (String × Json)) (k : String) :
    lookupJ (spreadObj a b) k =
      match lookupJ b k with
      | some w => some w
      | none => lookupJ a k := by
  unfold spreadObj
  rw [lookupJ_append, lookupJ_map_override]
  cases ha : lookupJ a k with
  | none =>
    rw [lookupJ_filter_keep _ b k (by intro v; simp [ha])]
    cases hb : lookupJ b k <;> simp [hb, ha]
  | some v =>
    cases hb : lookupJ b k <;> simp [hb]

/-- C8: for a GET request whose `datastar` parameter parses as a JSON
object, `ReadSignals` returns the shallow merge of that object over the
baseline (keys of the parsed object replace matching baseline keys, other
baseline keys are preserved); when the parameter is absent it is coerced
to the unparseable string "undefined" and the parse error propagates, as
it does for any malformed parameter. -/
theorem readSignals_get_shallow_merge :
    (∀ (parse : String → Except String Json) (baseline m : List (String × Json))
      (p : Option String),
      parse (jsUndef p) = Except.ok (Json.obj m) →
      ReadSignalsGET parse baseline p = Except.ok (spreadObj baseline m)) ∧
    (∀ (a b : List (String × Json)) (k : String),
      lookupJ (spreadObj a b) k =
        match lookupJ b k with
        | some w => some w
        | none => lookupJ a k) ∧
    (∀ (parse : String → Except String Json) (baseline : List (String × Json))
      (e : String),
      parse "undefined" = Except.error e →
      ReadSignalsGET parse baseline none = Except.error e) ∧
    (∀ (parse : String → Except String Json) (baseline : List (String × Json))
      (p : Option String) (e : String),
      parse (jsUndef p) = Except.error e →
      ReadSignalsGET parse baseline p = Except.error e) := by
  refine ⟨?_, lookupJ_spreadObj, ?_, ?_⟩
  · intro parse baseline m p h
    simp [ReadSignalsGET, h, jsSpreadKeys]
  · intro parse baseline e h
    simp [ReadSignalsGET, jsUndef, h]
  · intro parse baseline p e h
    simp [ReadSignalsGET, h]

/-- C8 witness: the abstract parse instantiated with a concrete sample
parser at the spec's example — baseline x:0, y:2, query x:1 merges to
x:1, y:2 — together with the propagated failure for an absent
parameter. -/
theorem readSignals_get_shallow_merge_witness :
    ReadSignalsGET parseSample [("x", Json.num 0), ("y", Json.num 2)]
        (some "\x7b\"x\":1\x7d") =
      Except.ok (spreadObj [("x", Json.num 0), ("y", Json.num 2)]
        [("x", Json.num 1)]) ∧
    spreadObj [("x", Json.num 0), ("y", Json.num 2)] [("x", Json.num 1)] =
      [("x", Json.num 1), ("y", Json.num 2)] ∧
    ReadSignalsGET parseSample [("x", Json.num 0), ("y", Json.num 2)] none =
      Except.error "SyntaxError: Unexpected token" :=
  ⟨readSignals_get_shallow_merge.1 parseSample _ _ _ rfl, rfl,
   readSignals_get_shallow_merge.2.2.1 parseSample _ _ rfl⟩

/-- A fold of the body-draining step function can only end rejected if it
started rejected: no handler ever rejects the promise. -/
theorem drainFold_rejected (parse : String → Except String Json) :
    ∀ (evs : List StreamEv) (st : PromiseState) (c : String) (e : String),
    (evs.foldl (drainStep parse) (st, c)).1 = PromiseState.rejected e →
    st = PromiseState.rejected e := by
  intro evs
  induction evs with
  | nil => intro st c e h; exact h
  | cons ev t ih =>
    intro st c e h
    rw [List.foldl_cons] at h
    cases ev with
    | data s => exact ih _ _ _ (by simpa [drainStep] using h)
    | endEv =>
      cases st with
      | pending =>
        cases hp : parse c with
        | ok v =>
          have h2 := ih _ _ _ (by simpa [drainStep, hp] using h)
          exact absurd h2 (by simp)
        | error e2 =>
          have h2 := ih _ _ _ (by simpa [drainStep, hp] using h)
          exact absurd h2 (by simp)
      | resolved v => exact ih _ _ _ (by simpa [drainStep] using h)
      | rejected e2 => exact ih _ _ _ (by simpa [drainStep] using h)
    | errorEv e2 => exact ih _ _ _ (by simpa [drainStep] using h)

/-- A fold of the body-draining step function that ends resolved either
started resolved, or the event sequence contains an end event at which
the parse of everything accumulated so far succeeded with the resolved
value. -/
theorem drainFold_resolved (parse : String → Except String Json) :
    ∀ (evs : List StreamEv) (st : PromiseState) (c : String) (v : Json),
    (evs.foldl (drainStep parse) (st, c)).1 = PromiseState.resolved v →
    st = PromiseState.resolved v ∨
      ∃ pre post, evs = pre ++ StreamEv.endEv :: post ∧
        parse (c ++ dataConcat pre) = Except.ok v := by
  intro evs
  induction evs with
  | nil => intro st c v h; exact Or.inl h
  | cons ev t ih =>
    intro st c v h
    rw [List.foldl_cons] at h
    cases ev with
    | data s =>
      have h2 := ih st (c ++ s) v (by simpa [drainStep] using h)
      cases h2 with
      | inl h2 => exact Or.inl h2
      | inr h2 =>
        obtain ⟨pre, post, hevs, hp⟩ := h2
        refine Or.inr ⟨StreamEv.data s :: pre, post, by rw [hevs]; rfl, ?_⟩
        rw [dataConcat, ← String.append_assoc]
        exact hp
    | endEv =>
      cases st with
      | pending =>
        cases hp : parse c with
        | ok v0 =>
          have h2 := ih (PromiseState.resolved v0) c v (by simpa [drainStep, hp] using h)
          cases h2 with
          | inl h2 =>
            injection h2 with hv
            subst hv
            refine Or.inr ⟨[], t, rfl, ?_⟩
            rw [dataConcat, String.append_empty]
            exact hp
          | inr h2 =>
            obtain ⟨pre, post, hevs, hpp⟩ := h2
            exact Or.inr ⟨StreamEv.endEv :: pre, post, by rw [hevs]; rfl,
              by simpa [dataConcat] using hpp⟩
        | error e0 =>
          have h2 := ih PromiseState.pending c v (by simpa [drainStep, hp] using h)
          cases h2 with
          | inl h2 => exact absurd h2 (by simp)
          | inr h2 =>
            obtain ⟨pre, post, hevs, hpp⟩ := h2
            exact Or.inr ⟨StreamEv.endEv :: pre, post, by rw [hevs]; rfl,
              by simpa [dataConcat] using hpp⟩
      | resolved v0 =>
        have h2 := ih (PromiseState.resolved v0) c v (by simpa [drainStep] using h)
        cases h2 with
        | inl h2 => exact Or.inl h2
        | inr h2 =>
          obtain ⟨pre, post, hevs, hpp⟩ := h2
          exact Or.inr ⟨StreamEv.endEv :: pre, post, by rw [hevs]; rfl,
            by simpa [dataConcat] using hpp⟩
      | rejected e0 =>
        have h2 := ih (PromiseState.rejected e0) c v (by simpa [drainStep] using h)
        cases h2 with
        | inl h2 => exact absurd h2 (by simp)
        | inr h2 =>
          obtain ⟨pre, post, hevs, hpp⟩ := h2
          exact Or.inr ⟨StreamEv.endEv :: pre, post, by rw [hevs]; rfl,
            by simpa [dataConcat] using hpp⟩
    | errorEv e2 =>
      have h2 := ih st c v (by simpa [drainStep] using h)
      cases h2 with
      | inl h2 => exact Or.inl h2
      | inr h2 =>
        obtain ⟨pre, post, hevs, hpp⟩ := h2
        exact Or.inr ⟨StreamEv.errorEv e2 :: pre, post, by rw [hevs]; rfl,
          by simpa [dataConcat] using hpp⟩

/-- C9 counterexample: the claim says a stream error makes the
body-draining promise reject with that error.  On a stream that emits
only an error event the promise stays pending — the executor registers no
"error" handler — so it does not reject. -/
theorem drain_error_event_leaves_pending :
    drainPromise parseSample [StreamEv.errorEv "boom"] = PromiseState.pending ∧
    drainPromise parseSample [StreamEv.errorEv "boom"] ≠ PromiseState.rejected "boom" := by
  constructor
  · rfl
  · intro h
    rw [show drainPromise parseSample [StreamEv.errorEv "boom"] = PromiseState.pending
      from rfl] at h
    exact PromiseState.noConfusion h

/-- C9 amended: the body-draining promise never resolves on partial data
— it is resolved only when the stream has emitted an end event, with the
parse of the full data accumulated before that end — but it never
rejects: a stream error fires no registered handler and leaves the
promise unsettled forever. -/
theorem drain_resolves_only_on_end_never_rejects :
    (∀ (parse : String → Except String Json) (evs : List StreamEv) (e : String),
      drainPromise parse evs ≠ PromiseState.rejected e) ∧
    (∀ (parse : String → Except String Json) (evs : List StreamEv) (v : Json),
      drainPromise parse evs = PromiseState.resolved v →
      ∃ pre post, evs = pre ++ StreamEv.endEv :: post ∧
        parse (dataConcat pre) = Except.ok v) := by
  constructor
  · intro parse evs e h
    have h2 := drainFold_rejected parse evs PromiseState.pending "" e h
    exact PromiseState.noConfusion h2
  · intro parse evs v h
    have h2 := drainFold_resolved parse evs PromiseState.pending "" v h
    cases h2 with
    | inl h2 => exact absurd h2 (by simp)
    | inr h2 =>
      obtain ⟨pre, post, hevs, hp⟩ := h2
      exact ⟨pre, post, hevs, by rwa [String.empty_append] at hp⟩

/-- C9 witness: the resolution characterization applied to a concrete
stream that sends one JSON chunk and then ends. -/
theorem drain_resolves_only_on_end_witness :
    ∃ pre post,
      [StreamEv.data "\x7b\"x\":1\x7d", StreamEv.endEv] =
        pre ++ StreamEv.endEv :: post ∧
      parseSample (dataConcat pre) = Except.ok (Json.obj [("x", Json.num 1)]) :=
  drain_resolves_only_on_end_never_rejects.2 parseSample _ _ rfl
